import Mathlib

/-!
Verification development for `src/extractor.py` (Real Estate Listing
Metadata Extraction System).  The pure fragments of the Python source are
translated into executable Lean definitions; stateful fragments are
modelled by explicit state passing.  Python strings are manipulated as
`List Char`, which matches Python `str` semantics for every operation the
source uses (indexing, slicing, `split`, `strip`, `replace`, `join`).
-/

namespace Extractor

/-! ### Character and string helpers (Python `str` operations) -/

/-- Numeric value of a list of decimal digit characters, most significant
first (the integer conversion performed by `datetime.strptime`). -/
def digitsVal (cs : List Char) : Nat :=
  cs.foldl (fun a c => a * 10 + (c.toNat - 48)) 0

/-- Python `s.split(sep)` for a one-character separator: keeps empty
fields, and splitting the empty string gives `[""]`. -/
def splitOnChar (sep : Char) : List Char → List (List Char)
  | [] => [[]]
  | c :: cs =>
    let r := splitOnChar sep cs
    if c = sep then [] :: r
    else
      match r with
      | [] => [[c]]
      | h :: t => (c :: h) :: t

/-- Python `' '.join(parts)`. -/
def joinSpaces : List (List Char) → List Char
  | [] => []
  | [t] => t
  | t :: rest => t ++ ' ' :: joinSpaces rest

/-- Python `s.strip('/')`: remove every leading and trailing `'/'`. -/
def stripSlashes (cs : List Char) : List Char :=
  ((cs.dropWhile (· = '/')).reverse.dropWhile (· = '/')).reverse

/-- Worker for `removeAll`, structurally recursive on a fuel argument
that always dominates the list length. -/
def removeAllFuel (pat : List Char) : Nat → List Char → List Char
  | 0, cs => cs
  | _, [] => []
  | Nat.succ k, c :: cs =>
    if pat ≠ [] ∧ pat.isPrefixOf (c :: cs) then
      removeAllFuel pat k (cs.drop (pat.length - 1))
    else
      c :: removeAllFuel pat k cs

/-- Python `s.replace(pat, '')` for a non-empty pattern: remove every
occurrence of `pat`, scanning left to right without overlap. -/
def removeAll (pat cs : List Char) : List Char :=
  removeAllFuel pat cs.length cs

/-! ### Calendar arithmetic (models CPython `datetime` + `pytz`)

The proleptic Gregorian calendar functions below follow CPython's
`datetime` module (`_days_before_year`, `_ymd2ord`, `_ord2ymd`). -/

/-- Gregorian leap-year test. -/
def isLeap (y : Nat) : Bool :=
  y % 4 == 0 && (y % 100 != 0 || y % 400 == 0)

/-- Number of days in month `m` of year `y` (months are 1-based). -/
def daysInMonth (y m : Nat) : Nat :=
  if m = 2 then (if isLeap y then 29 else 28)
  else if m = 4 ∨ m = 6 ∨ m = 9 ∨ m = 11 then 30
  else 31

/-- Days in the years `[1, y)` of the proleptic Gregorian calendar. -/
def daysBeforeYear (y : Nat) : Nat :=
  (y - 1) * 365 + (y - 1) / 4 - (y - 1) / 100 + (y - 1) / 400

/-- Days in year `y` strictly before month `m`. -/
def daysBeforeMonth (y m : Nat) : Nat :=
  (List.range' 1 (m - 1)).foldl (fun a k => a + daysInMonth y k) 0

/-- Ordinal day number: `toOrdinal 1 1 1 = 1` (as Python `date.toordinal`). -/
def toOrdinal (y m d : Nat) : Nat :=
  daysBeforeYear y + daysBeforeMonth y m + d

/-- Month and day from a 1-based day-of-year, given leapness. -/
def doy2md (leap : Bool) (doy : Nat) : Nat × Nat :=
  let feb := if leap then 29 else 28
  if doy ≤ 31 then (1, doy)
  else if doy ≤ 31 + feb then (2, doy - 31)
  else if doy ≤ 62 + feb then (3, doy - (31 + feb))
  else if doy ≤ 92 + feb then (4, doy - (62 + feb))
  else if doy ≤ 123 + feb then (5, doy - (92 + feb))
  else if doy ≤ 153 + feb then (6, doy - (123 + feb))
  else if doy ≤ 184 + feb then (7, doy - (153 + feb))
  else if doy ≤ 215 + feb then (8, doy - (184 + feb))
  else if doy ≤ 245 + feb then (9, doy - (215 + feb))
  else if doy ≤ 276 + feb then (10, doy - (245 + feb))
  else if doy ≤ 306 + feb then (11, doy - (276 + feb))
  else (12, doy - (306 + feb))

/-- Inverse of `toOrdinal` (CPython `_ord2ymd`). -/
def ord2ymd (ord : Nat) : Nat × Nat × Nat :=
  let n := ord - 1
  let n400 := n / 146097
  let r1 := n % 146097
  let n100 := r1 / 36524
  let r2 := r1 % 36524
  let n4 := r2 / 1461
  let r3 := r2 % 1461
  let n1 := r3 / 365
  let r4 := r3 % 365
  if n1 = 4 ∨ n100 = 4 then
    (400 * n400 + 100 * n100 + 4 * n4 + n1, 12, 31)
  else
    let y := 400 * n400 + 100 * n100 + 4 * n4 + n1 + 1
    let (m, d) := doy2md (isLeap y) (r4 + 1)
    (y, m, d)

/-- Seconds since the epoch `0001-01-01 00:00:00` minus one day (the day
carrying ordinal 1 starts at count `86400`). -/
def toAbsSeconds (y m d hh mi ss : Nat) : Nat :=
  toOrdinal y m d * 86400 + hh * 3600 + mi * 60 + ss

/-- Civil date-time back from an absolute second count. -/
def fromAbsSeconds (abs : Nat) : Nat × Nat × Nat × Nat × Nat × Nat :=
  let ord := abs / 86400
  let sod := abs % 86400
  let (y, md) := ord2ymd ord
  (y, md.1, md.2, sod / 3600, (sod % 3600) / 60, sod % 60)

/-- Day of the second Sunday of March of year `y` (US DST start since
2007).  `toOrdinal 1 1 1 = 1` fell on a Monday, so an ordinal is a Sunday
iff it is divisible by 7. -/
def secondSundayMarch (y : Nat) : Nat :=
  8 + (7 - toOrdinal y 3 8 % 7) % 7

/-- Day of the first Sunday of November of year `y` (US DST end). -/
def firstSundayNov (y : Nat) : Nat :=
  1 + (7 - toOrdinal y 11 1 % 7) % 7

/-- Whether US Eastern daylight-saving time is active at the UTC instant
with year `y` and absolute second count `abs`: from 07:00 UTC of the
second Sunday of March (02:00 EST) up to 06:00 UTC of the first Sunday of
November (02:00 EDT). -/
def dstActiveUTC (y abs : Nat) : Bool :=
  decide (toAbsSeconds y 3 (secondSundayMarch y) 7 0 0 ≤ abs ∧
    abs < toAbsSeconds y 11 (firstSundayNov y) 6 0 0)

/-- A timezone-aware US Eastern timestamp, as produced by
`pytz.timezone('US/Eastern')`: civil fields plus the DST flag (which
determines the `%Z` abbreviation `EST`/`EDT`). -/
structure EasternTime where
  year : Nat
  month : Nat
  day : Nat
  hour : Nat
  minute : Nat
  second : Nat
  dst : Bool
deriving DecidableEq, Repr

/-- Modelled from the spec: the conversion performed by
`utc_dt.astimezone(self.est_tz)` with `est_tz = pytz.timezone('US/Eastern')`
(the `pytz` library is external to the repository).  The spec fixes US
Eastern as the reference timezone; we model its post-2007 rule: UTC−4
(`EDT`) between the second Sunday of March and the first Sunday of
November, UTC−5 (`EST`) otherwise. -/
def utcToEastern (y m d hh mi ss : Nat) : EasternTime :=
  let abs := toAbsSeconds y m d hh mi ss
  let dst := dstActiveUTC y abs
  let off := if dst then 4 else 5
  let abs2 := abs - off * 3600
  let (y2, rest) := fromAbsSeconds abs2
  ⟨y2, rest.1, rest.2.1, rest.2.2.1, rest.2.2.2.1, rest.2.2.2.2, dst⟩

/-! ### `convert_utc_to_est` (src/extractor.py lines 213–240) -/

/-- Take the maximal run of decimal digits; return (digits, rest). -/
def spanDigits (cs : List Char) : List Char × List Char :=
  (cs.takeWhile Char.isDigit, cs.dropWhile Char.isDigit)

/-- Models `datetime.strptime(s, '%Y-%m-%dT%H:%M:%S')` (CPython
`_strptime` with the `datetime` constructor's validation): a 4-digit year
`≥ 1`, 1–2 digit month/day/hour/minute/second within range, `day` checked
against the month length, literal `-`, `-`, `T`, `:`, `:` separators, and
nothing left over.  Returns `(y, m, d, hh, mi, ss)`. -/
def strptimeYmdHms (cs : List Char) : Option (Nat × Nat × Nat × Nat × Nat × Nat) :=
  let (ys, r1) := spanDigits cs
  if ys.length = 4 ∧ 1 ≤ digitsVal ys then
    match r1 with
    | '-' :: r2 =>
      let (ms, r3) := spanDigits r2
      if (ms.length = 1 ∨ ms.length = 2) ∧ 1 ≤ digitsVal ms ∧ digitsVal ms ≤ 12 then
        match r3 with
        | '-' :: r4 =>
          let (ds, r5) := spanDigits r4
          if (ds.length = 1 ∨ ds.length = 2) ∧ 1 ≤ digitsVal ds ∧
              digitsVal ds ≤ daysInMonth (digitsVal ys) (digitsVal ms) then
            match r5 with
            | 'T' :: r6 =>
              let (hs, r7) := spanDigits r6
              if (hs.length = 1 ∨ hs.length = 2) ∧ digitsVal hs ≤ 23 then
                match r7 with
                | ':' :: r8 =>
                  let (mis, r9) := spanDigits r8
                  if (mis.length = 1 ∨ mis.length = 2) ∧ digitsVal mis ≤ 59 then
                    match r9 with
                    | ':' :: r10 =>
                      let (ss, r11) := spanDigits r10
                      if (ss.length = 1 ∨ ss.length = 2) ∧ digitsVal ss ≤ 59 ∧ r11 = [] then
                        some (digitsVal ys, digitsVal ms, digitsVal ds,
                          digitsVal hs, digitsVal mis, digitsVal ss)
                      else none
                    | _ => none
                  else none
                | _ => none
              else none
            | _ => none
          else none
        | _ => none
      else none
    | _ => none
  else none

/-- `RealEstateExtractor.convert_utc_to_est` (src/extractor.py lines
213–240).  The argument is `Option String`-valued because the caller can
pass Python `None` (an absent `<lastmod>` text); `if not utc_datetime_str`
rejects both `None` and the empty string.  `'Z'` characters are removed by
`utc_datetime_str.replace('Z', '')` before parsing; any parse failure is
caught and yields `None`. -/
def convert_utc_to_est (s : Option String) : Option EasternTime :=
  match s with
  | none => none
  | some str =>
    if str = "" then none
    else
      match strptimeYmdHms ((str.toList).filter (· ≠ 'Z')) with
      | none => none
      | some (y, m, d, hh, mi, ss) => some (utcToEastern y m d hh mi ss)

/-! ### `parse_listing_url` (src/extractor.py lines 273–323) -/

/-- The dictionary returned by `parse_listing_url` on success. -/
structure Parsed where
  property_id : String
  address : String
  city : String
  state : String
  zipcode : String
deriving DecidableEq, Repr

/-- One attempt of `re.search(r'^(.+?)-([A-Z]{2})-(\d{5})$', s)` at exact
end-of-string: because the suffix `-[A-Z]{2}-\d{5}` has fixed width 9, a
match (if any) is unique — the capture groups are the first `n - 9`
characters, the 2 uppercase letters, and the 5 digits.  `.` does not match
a newline, so the prefix may not contain `'\n'`; `[A-Z]` and Lean's
`Char.isUpper` are both exactly ASCII `A`–`Z` (we model `\d` as ASCII
`0`–`9`). -/
def matchAddrCore (cs : List Char) : Option (List Char × List Char × List Char) :=
  let n := cs.length
  if 10 ≤ n then
    match cs.drop (n - 9) with
    | [d1, a, b, d2, z1, z2, z3, z4, z5] =>
      if d1 = '-' ∧ a.isUpper ∧ b.isUpper ∧ d2 = '-' ∧
          z1.isDigit ∧ z2.isDigit ∧ z3.isDigit ∧ z4.isDigit ∧ z5.isDigit ∧
          (cs.take (n - 9)).all (· ≠ '\n') then
        some (cs.take (n - 9), [a, b], [z1, z2, z3, z4, z5])
      else none
    | _ => none
  else none

/-- `re.search(r'^(.+?)-([A-Z]{2})-(\d{5})$', s)`: Python `$` also matches
just before one trailing `'\n'`, so a string ending in a newline may match
on its `dropLast`. -/
def matchAddr (cs : List Char) : Option (List Char × List Char × List Char) :=
  match matchAddrCore cs with
  | some r => some r
  | none => if cs.getLast? = some '\n' then matchAddrCore cs.dropLast else none

/-- The address/city split (src/extractor.py lines 304–311): split the
matched prefix on `'-'`; with ≥ 2 tokens the last two (space-joined) are
the city and the rest the address, otherwise dashes become spaces and the
city is empty. -/
def addrCityOf (pre : List Char) : List Char × List Char :=
  let toks := splitOnChar '-' pre
  if 2 ≤ toks.length then
    (joinSpaces (toks.take (toks.length - 2)), joinSpaces (toks.drop (toks.length - 2)))
  else
    (pre.map (fun c => if c = '-' then ' ' else c), [])

/-- `RealEstateExtractor.parse_listing_url` (src/extractor.py lines
273–323) applied to the path component of the URL: strip the slashes,
split on `'/'`, require ≥ 3 segments, remove every `'_zpid'` from segment
2, and match segment 1 against the address pattern.  All failure paths
return `none` (the Python body is wrapped in `try`/`except`). -/
def parse_listing_path (path : String) : Option Parsed :=
  match splitOnChar '/' (stripSlashes path.toList) with
  | _ :: addressPart :: idPart :: _ =>
    let pid := removeAll ('_' :: 'z' :: 'p' :: 'i' :: 'd' :: []) idPart
    match matchAddr addressPart with
    | some (pre, st, zp) =>
      let ac := addrCityOf pre
      some ⟨String.mk pid, String.mk ac.1, String.mk ac.2, String.mk st, String.mk zp⟩
    | none => none
  | _ => none

/-- Whether a URL has a valid scheme part before its first `':'`
(`urllib.parse`: a letter followed by letters, digits, `+`, `-`, `.`). -/
def validScheme (cs : List Char) : Bool :=
  match cs with
  | [] => false
  | c :: rest => c.isAlpha && rest.all (fun x => x.isAlphanum || x = '+' || x = '-' || x = '.')

/-- Drop a leading `scheme:` when present. -/
def stripSchemeChars (cs : List Char) : List Char :=
  let before := cs.takeWhile (· ≠ ':')
  if before.length < cs.length && validScheme before then cs.drop (before.length + 1) else cs

/-- Model of `urllib.parse.urlparse(url).path` (Python standard library,
external to the repository): cut at the first `'#'` (fragment) and first
`'?'` (query), drop a valid `scheme:`, and drop `//netloc` up to the next
`'/'`.  (`;params` splitting, which Zillow URLs never use, is not
modelled.) -/
def urlparse_path (url : String) : String :=
  let u := stripSchemeChars ((url.toList.takeWhile (· ≠ '#')).takeWhile (· ≠ '?'))
  let p := if u.take 2 = ['/', '/'] then (u.drop 2).dropWhile (· ≠ '/') else u
  String.mk p

/-- `RealEstateExtractor.parse_listing_url` on a full listing URL. -/
def parse_listing_url (url : String) : Option Parsed :=
  parse_listing_path (urlparse_path url)

/-! ### XML model (`xml.etree.ElementTree` as used by the source)

An element has a (namespace-qualified) tag, optional text, and a list of
child elements; `findall` searches direct children only, in document
order, exactly like `root.findall('ns:url', namespace)`. -/

/-- An XML element. `text` is `Option String` because `ElementTree` gives
`None` for an element with no text content. -/
inductive XmlTree where
  | elem (tag : String) (text : Option String) (children : List XmlTree)

/-- The tag of an element. -/
def XmlTree.tagOf : XmlTree → String
  | .elem t _ _ => t

/-- The text of an element (`None` when empty). -/
def XmlTree.textOf : XmlTree → Option String
  | .elem _ tx _ => tx

/-- The direct children of an element. -/
def XmlTree.childrenOf : XmlTree → List XmlTree
  | .elem _ _ cs => cs

/-- `element.findall(tag, namespace)`: direct children with the given
qualified tag, in document order. -/
def findall (t : XmlTree) (tag : String) : List XmlTree :=
  t.childrenOf.filter (fun c => c.tagOf = tag)

/-- `element.find(tag, namespace)`: the first direct child with the given
qualified tag, if any. -/
def findFirst (t : XmlTree) (tag : String) : Option XmlTree :=
  (findall t tag).head?

/-- Clark notation for `ns:url` with the sitemaps.org 0.9 namespace. -/
def nsUrlTag : String := "\x7bhttp://www.sitemaps.org/schemas/sitemap/0.9\x7durl"

/-- Clark notation for `ns:loc`. -/
def nsLocTag : String := "\x7bhttp://www.sitemaps.org/schemas/sitemap/0.9\x7dloc"

/-- Clark notation for `ns:lastmod`. -/
def nsLastmodTag : String := "\x7bhttp://www.sitemaps.org/schemas/sitemap/0.9\x7dlastmod"

/-- Clark notation for `ns:sitemap`. -/
def nsSitemapTag : String := "\x7bhttp://www.sitemaps.org/schemas/sitemap/0.9\x7dsitemap"

/-- The outcome of obtaining a sitemap document's body: `ET.fromstring`
either raises `ParseError` (malformed) or yields a root element. -/
inductive Content where
  | malformed
  | wellFormed (root : XmlTree)

/-! ### `extract_listings_from_sitemap` (src/extractor.py lines 325–390) -/

/-- One decoded listing record (the dictionary built at lines 374–383).
`last_modified` is the raw `<lastmod>` text: the empty string when the
element is absent, Python `None` (here `none`) when the element is present
but empty. -/
structure Listing where
  property_id : String
  listing_url : String
  address : String
  city : String
  state : String
  zipcode : String
  last_modified : Option String
  last_modified_est : Option EasternTime
deriving DecidableEq, Repr

/-- The raw `<lastmod>` value of a `<url>` element:
`lastmod.text if lastmod is not None else ''` (line 362). -/
def rawLastmodOf (elem : XmlTree) : Option String :=
  match findFirst elem nsLastmodTag with
  | none => some ""
  | some lm => lm.textOf

/-- The candidate listing decoded from one `<url>` element (lines
357–383, everything before the duplicate check): requires a `<loc>` child
with text whose URL decodes; `parse_listing_url(None)` raises inside its
own `try` and is skipped. -/
def candidateOf (elem : XmlTree) : Option Listing :=
  match findFirst elem nsLocTag with
  | none => none
  | some locEl =>
    match locEl.textOf with
    | none => none
    | some listingUrl =>
      match parse_listing_url listingUrl with
      | none => none
      | some p =>
        some ⟨p.property_id, listingUrl, p.address, p.city, p.state, p.zipcode,
          rawLastmodOf elem, convert_utc_to_est (rawLastmodOf elem)⟩

/-- The store's check-and-insert on `self.seen_ids` (lines 370 and 386):
membership test, then insertion when absent.  Returns whether the record
is to be stored, and the updated set. -/
def tryAdd (seen : Finset String) (pid : String) : Bool × Finset String :=
  if pid ∈ seen then (false, seen) else (true, insert pid seen)

/-- Processing of one `<url>` element inside the loop (lines 351–387):
decode a candidate, then keep it iff its `property_id` was not seen. -/
def processUrlElem (seen : Finset String) (elem : XmlTree) :
    Option Listing × Finset String :=
  match candidateOf elem with
  | none => (none, seen)
  | some l =>
    if (tryAdd seen l.property_id).1 then (some l, (tryAdd seen l.property_id).2)
    else (none, (tryAdd seen l.property_id).2)

/-- The loop of lines 351–387 over all `<url>` elements, threading
`seen_ids` and accumulating stored listings in document order. -/
def processUrls (seen : Finset String) : List XmlTree → List Listing × Finset String
  | [] => ([], seen)
  | e :: es =>
    match processUrlElem seen e with
    | (some l, s') =>
      let r := processUrls s' es
      (l :: r.1, r.2)
    | (none, s') => processUrls s' es

/-- `RealEstateExtractor.extract_listings_from_sitemap` (lines 325–390).
`content = none` models a fetch failure (or empty body): `download_sitemap`
returned a falsy value and the job yields `[]`.  A malformed body makes
`ET.fromstring` (line 341) raise, and nothing catches it inside this
function — the error propagates to the caller. -/
def extract_listings_from_sitemap (seen : Finset String) (content : Option Content) :
    Except String (List Listing × Finset String) :=
  match content with
  | none => .ok ([], seen)
  | some .malformed => .error "XML ParseError"
  | some (.wellFormed root) => .ok (processUrls seen (findall root nsUrlTag))

/-- The `ListingStore` fold: the dedup loop of lines 366–387 restricted to
a sequence of already-decoded listings offered to the store in order. -/
def storeOffered (seen : Finset String) : List Listing → List Listing × Finset String
  | [] => ([], seen)
  | l :: ls =>
    let r := tryAdd seen l.property_id
    if r.1 then
      let rest := storeOffered r.2 ls
      (l :: rest.1, rest.2)
    else storeOffered r.2 ls

/-! ### `save_to_csv` (src/extractor.py lines 392–452) -/

/-- Two-digit zero padding, as `strftime` `%m`/`%d`/`%H`/`%M`/`%S`. -/
def pad2 (n : Nat) : String :=
  if n < 10 then "0" ++ toString n else toString n

/-- `value.strftime('%Y-%m-%d %H:%M:%S %Z')` on a pytz US/Eastern
datetime: `%Z` is `EST` or `EDT`. -/
def fmtEastern (t : EasternTime) : String :=
  toString t.year ++ "-" ++ pad2 t.month ++ "-" ++ pad2 t.day ++ " " ++
    pad2 t.hour ++ ":" ++ pad2 t.minute ++ ":" ++ pad2 t.second ++ " " ++
    (if t.dst then "EDT" else "EST")

/-- The CSV cell for `last_modified_est` (lines 434–435): formatted when a
converted datetime is present, empty otherwise (`csv` writes Python `None`
as the empty string). -/
def renderEst : Option EasternTime → String
  | none => ""
  | some t => fmtEastern t

/-- The `fields` list of lines 412–421: the CSV column order. -/
def csvHeader : List String :=
  ["property_id", "listing_url", "address", "city", "state", "zipcode",
    "last_modified", "last_modified_est"]

/-- One data row (lines 428–439): field values in header order; a `None`
raw `last_modified` is written as the empty string by `csv.DictWriter`. -/
def csvRow (l : Listing) : List String :=
  [l.property_id, l.listing_url, l.address, l.city, l.state, l.zipcode,
    l.last_modified.getD "", renderEst l.last_modified_est]

/-- `RealEstateExtractor.save_to_csv` (lines 392–452), modelled as the
grid of cells written to the file: `None` (no file) for an empty listing
batch, otherwise the header row followed by one row per listing. -/
def save_to_csv (listings : List Listing) : Option (List (List String)) :=
  if listings.isEmpty then none else some (csvHeader :: listings.map csvRow)

/-! ### The run over jobs (src/extractor.py `process_sitemap` lines
502–549 and `run` lines 551–612)

The thread pool is modelled as processing jobs in submission order; each
job's downloaded body is part of the job description.  The `try`/`except`
around `future.result()` (lines 585–589) catches a job's exception, logs
it, and continues with the remaining jobs. -/

/-- One sitemap job: its category name and the outcome of downloading its
body. -/
structure Job where
  category : String
  content : Option Content

/-- Aggregate run state: the shared `seen_ids`, the saved files (category
with CSV cell grid), the `total_properties` counter, and the errors logged
by the `as_completed` loop. -/
structure RunAcc where
  seen : Finset String
  files : List (String × List (List String))
  total : Nat
  errors : List String

/-- The run state at start: fresh dedup set, no files, no records. -/
def initAcc : RunAcc := ⟨∅, [], 0, []⟩

/-- One job processed under the run's per-job exception barrier: an
exception escaping `extract_listings_from_sitemap` is caught at lines
585–589 (`Error processing sitemap`), leaving every other field of the run
state untouched; on success the listings are saved (`save_to_csv` returns
no file for an empty batch) and the totals updated. -/
def processJob (acc : RunAcc) (j : Job) : RunAcc :=
  match extract_listings_from_sitemap acc.seen j.content with
  | .error e => { acc with errors := acc.errors ++ [e] }
  | .ok res =>
    { acc with
      seen := res.2
      files :=
        match save_to_csv res.1 with
        | none => acc.files
        | some rows => acc.files ++ [(j.category, rows)]
      total := acc.total + res.1.length }

/-- `RealEstateExtractor.run` over a job list. -/
def runAll (jobs : List Job) : RunAcc :=
  jobs.foldl processJob initAcc

/-! ### Web-UI run state and control endpoints (src/extractor.py lines
82–115 and 1290–1313) -/

/-- The `extraction_status` dictionary (lines 83–96), restricted to the
fields the claims are about. -/
structure Status where
  running : Bool
  progress : Nat
  current_category : String
  total_categories : Nat
  processed_categories : Nat
  total_properties : Nat
  logs : List String
  files : List String
  error : Option String
deriving DecidableEq, Repr

/-- The web-side state: `extraction_status` plus the separate global
`extraction_paused` flag (line 99). -/
structure WebState where
  status : Status
  paused : Bool
deriving DecidableEq, Repr

/-- `WebUILogger.emit` (lines 107–115) acting on the log tail: append the
formatted entry, then keep only the last 200 entries.  The entry is taken
already formatted (`[HH:MM:SS] message`). -/
def WebUILogger_emit (logs : List String) (entry : String) : List String :=
  let l := logs ++ [entry]
  if 200 < l.length then l.drop (l.length - 200) else l

/-- `pause_extraction` (lines 1290–1296): set the pause flag and append a
log entry (with no truncation). -/
def pause_extraction (s : WebState) : WebState :=
  ⟨{ s.status with logs := s.status.logs ++ ["[PAUSED BY USER]"] }, true⟩

/-- `resume_extraction` (lines 1299–1305): clear the pause flag and append
a log entry (with no truncation). -/
def resume_extraction (s : WebState) : WebState :=
  ⟨{ s.status with logs := s.status.logs ++ ["[RESUMED BY USER]"] }, false⟩

/-- `stop_extraction` (lines 1308–1313): clear the running flag and append
a log entry (with no truncation). -/
def stop_extraction (s : WebState) : WebState :=
  ⟨{ s.status with running := false, logs := s.status.logs ++ ["[STOPPED BY USER]"] },
    s.paused⟩

/-! ### Fine-grained interleaving of the seen-set check-and-insert

Lines 370 (`if parsed['property_id'] in self.seen_ids: continue`) and 386
(`self.seen_ids.add(...)`) are two separate operations on the shared set,
with record construction between them and no lock.  Each worker thread
performing them is a two-step program: CHECK (pc 0) then, if the id was
absent, INSERT-and-store (pc 1).  A schedule interleaves the steps of two
threads offering the same `property_id`. -/

/-- One worker thread's progress through the check-then-insert sequence. -/
structure RaceThread where
  pc : Nat
  stored : Bool
deriving DecidableEq, Repr

/-- Shared `seen_ids` plus two worker threads. -/
structure RaceState where
  seen : Finset String
  w1 : RaceThread
  w2 : RaceThread
deriving DecidableEq

/-- One step of a thread: at pc 0 it performs the membership test of line
370 (moving to the insert step only if absent); at pc 1 it performs the
insert of line 386 and stores its record. -/
def raceStep (pid : String) (seen : Finset String) (t : RaceThread) :
    Finset String × RaceThread :=
  match t.pc with
  | 0 => if pid ∈ seen then (seen, ⟨2, false⟩) else (seen, ⟨1, false⟩)
  | 1 => (insert pid seen, ⟨2, true⟩)
  | _ => (seen, t)

/-- Execute a schedule: `true` steps thread 1, `false` steps thread 2. -/
def raceRun (pid : String) (sched : List Bool) (s : RaceState) : RaceState :=
  sched.foldl
    (fun st pick =>
      if pick then
        let r := raceStep pid st.seen st.w1
        { st with seen := r.1, w1 := r.2 }
      else
        let r := raceStep pid st.seen st.w2
        { st with seen := r.1, w2 := r.2 })
    s

/-- Both threads at the start of `tryAdd`, nothing stored, id unseen. -/
def raceInit : RaceState := ⟨∅, ⟨0, false⟩, ⟨0, false⟩⟩

/-! ### `get_sitemap_children` (src/extractor.py lines 615–649) -/

/-- The outcome of `requests.get` + `raise_for_status` for the parent
sitemap: `failure` when the fetch raises (network error or non-2xx);
otherwise the body, described by what `gzip` decompression would yield
(`some` content iff the body is valid gzip) together with the parse
outcome of `response.text` (the plain-text fallback). -/
inductive HttpResult where
  | failure
  | ok (gz : Option Content) (text : Content)

/-- `get_sitemap_children` (lines 615–649): any exception (fetch, HTTP
status, XML parse) is caught by the outer `try` and yields `[]`; a gzip
decompression failure is caught by the inner bare `except` and falls back
to `response.text`.  On success it appends `loc.text` (which is `None` for
an empty `<loc/>`) for each direct `<sitemap>` child having a `<loc>`, in
document order. -/
def get_sitemap_children (r : HttpResult) : List (Option String) :=
  match r with
  | .failure => []
  | .ok gz text =>
    match gz.getD text with
    | .malformed => []
    | .wellFormed root =>
      (findall root nsSitemapTag).filterMap
        (fun sm => (findFirst sm nsLocTag).map XmlTree.textOf)

/-! ### Concrete sample data used by witnesses and counterexamples -/

/-- The worked-example listing URL of the spec. -/
def sampleLocUrl : String :=
  "https://www.zillow.com/homedetails/123-Main-St-Springfield-IL-62701/12345_zpid/"

/-- A `<url>` element carrying the sample URL and a January lastmod. -/
def sampleUrlElem : XmlTree :=
  .elem nsUrlTag none
    [.elem nsLocTag (some sampleLocUrl) [],
      .elem nsLastmodTag (some "2024-01-15T12:00:00Z") []]

/-- The listing the source actually decodes from `sampleUrlElem`. -/
def sampleListing : Listing :=
  ⟨"12345", sampleLocUrl, "123 Main", "St Springfield", "IL", "62701",
    some "2024-01-15T12:00:00Z", some ⟨2024, 1, 15, 7, 0, 0, false⟩⟩

/-- A second `<url>` element with a distinct property id and no lastmod. -/
def sampleUrlElemB : XmlTree :=
  .elem nsUrlTag none
    [.elem nsLocTag (some "https://www.zillow.com/homedetails/9-Oak-Ave-Boston-MA-02101/77_zpid/") []]

/-- The listing decoded from `sampleUrlElemB` (absent lastmod gives the
empty raw string and no converted time). -/
def sampleListingB : Listing :=
  ⟨"77", "https://www.zillow.com/homedetails/9-Oak-Ave-Boston-MA-02101/77_zpid/",
    "9 Oak", "Ave Boston", "MA", "02101", some "", none⟩

/-- A job whose sitemap holds only `sampleUrlElem`. -/
def sampleJobA : Job :=
  ⟨"for-sale-by-agent", some (.wellFormed (.elem "urlset" none [sampleUrlElem]))⟩

/-- A job whose sitemap holds only `sampleUrlElemB`. -/
def sampleJobB : Job :=
  ⟨"for-rent", some (.wellFormed (.elem "urlset" none [sampleUrlElemB]))⟩

/-- A malformed-XML job. -/
def badJob : Job := ⟨"auction", some Content.malformed⟩

/-- A quiescent web-UI state. -/
def initWebState : WebState := ⟨⟨false, 0, "", 0, 0, 0, [], [], none⟩, false⟩

/-- A running web-UI state whose log tail already holds exactly 200
entries. -/
def fullLogsState : WebState :=
  ⟨⟨true, 0, "", 0, 0, 0, List.replicate 200 "log entry", [], none⟩, false⟩

/-- A sitemap index with two `<sitemap>` children carrying `<loc>` and one
lacking it. -/
def sampleIndexRoot : XmlTree :=
  .elem "sitemapindex" none
    [.elem nsSitemapTag none [.elem nsLocTag (some "https://child1.xml.gz") []],
      .elem nsSitemapTag none [],
      .elem nsSitemapTag none [.elem nsLocTag (some "https://child2.xml.gz") []]]

/-! ### Claim theorems -/

/-- C2 (counter-evidence for the code): the claim states that no two
concurrent `tryAdd` calls with the same `propertyId` may both store a
record, but the membership test (line 370) and the insert (line 386) are
separate unsynchronized operations on the shared `seen_ids` set; under the
interleaving check₁-check₂-insert₁-insert₂ both workers observe the id as
unseen and both store their record. -/
theorem c2_race_both_store :
    (raceRun "12345" [true, false, true, false] raceInit).w1.stored = true ∧
    (raceRun "12345" [true, false, true, false] raceInit).w2.stored = true := by
  decide

/-- C3 (counterexample): decoding the spec's worked-example URL does not
yield the record claimed by the spec — the code's city/address split takes
the last two hyphen tokens of the prefix `123-Main-St-Springfield` as the
city, so the address is `123 Main` and the city `St Springfield`, not
`123 Main St` / `Springfield IL`. -/
theorem c3_decode_counterexample :
    parse_listing_url "/homedetails/123-Main-St-Springfield-IL-62701/12345_zpid/" ≠
      some ⟨"12345", "123 Main St", "Springfield IL", "IL", "62701"⟩ := by
  decide

/-- C3 (amended): decoding the listing URL
`/homedetails/123-Main-St-Springfield-IL-62701/12345_zpid/` yields exactly
`{propertyId "12345", address "123 Main", city "St Springfield",
state "IL", zipcode "62701"}`. -/
theorem c3_decode_amended :
    parse_listing_url "/homedetails/123-Main-St-Springfield-IL-62701/12345_zpid/" =
      some ⟨"12345", "123 Main", "St Springfield", "IL", "62701"⟩ := by
  decide

/-- C9 (counterexample): the control calls are not idempotent on the full
run state — a second `pause()` appends a second `[PAUSED BY USER]` entry
to the log tail, so the state after two calls differs from the state after
one. -/
theorem c9_control_counterexample :
    pause_extraction (pause_extraction initWebState) ≠ pause_extraction initWebState := by
  decide

/-- C9 (amended): `pause()`, `resume()` and `stop()` never fail and are
idempotent on every field except the log tail: a repeated call leaves the
paused and running flags (and all other fields) as after the first call
and only appends one more log entry; `stop()` always leaves `running`
false, so calling it after the run has completed keeps `running` false. -/
theorem c9_control_idempotent_amended (s : WebState) :
    (pause_extraction (pause_extraction s)).paused = (pause_extraction s).paused ∧
    (pause_extraction (pause_extraction s)).status.running =
      (pause_extraction s).status.running ∧
    pause_extraction (pause_extraction s) =
      ⟨{ (pause_extraction s).status with
          logs := (pause_extraction s).status.logs ++ ["[PAUSED BY USER]"] },
        (pause_extraction s).paused⟩ ∧
    (resume_extraction (resume_extraction s)).paused = (resume_extraction s).paused ∧
    resume_extraction (resume_extraction s) =
      ⟨{ (resume_extraction s).status with
          logs := (resume_extraction s).status.logs ++ ["[RESUMED BY USER]"] },
        (resume_extraction s).paused⟩ ∧
    (stop_extraction s).status.running = false ∧
    (stop_extraction (stop_extraction s)).status.running =
      (stop_extraction s).status.running ∧
    (stop_extraction (stop_extraction s)).paused = (stop_extraction s).paused ∧
    stop_extraction (stop_extraction s) =
      ⟨{ (stop_extraction s).status with
          logs := (stop_extraction s).status.logs ++ ["[STOPPED BY USER]"] },
        (stop_extraction s).paused⟩ :=
  ⟨rfl, rfl, rfl, rfl, rfl, rfl, rfl, rfl, rfl⟩

/-- C9 witness: the amended idempotence facts at the quiescent state. -/
theorem c9_control_idempotent_witness :
    (pause_extraction (pause_extraction initWebState)).paused =
      (pause_extraction initWebState).paused ∧
    (stop_extraction initWebState).status.running = false :=
  ⟨(c9_control_idempotent_amended initWebState).1,
    (c9_control_idempotent_amended initWebState).2.2.2.2.2.1⟩

/-- C8 (counterexample): not every appender of the run state keeps the log
tail at 200 entries — `pause_extraction` on a state whose tail already
holds 200 entries appends without truncating, leaving 201 entries. -/
theorem c8_logtail_counterexample :
    ¬ (pause_extraction fullLogsState).status.logs.length ≤ 200 := by
  have h : (pause_extraction fullLogsState).status.logs.length = 201 := by
    simp only [pause_extraction, fullLogsState, List.length_append,
      List.length_replicate, List.length_cons, List.length_nil]
  omega

/-- C8 (amended): the logging handler `WebUILogger.emit` always leaves the
tail with at most 200 entries, keeping the newest entries (the result is
the suffix of `logs ++ [entry]` after dropping the oldest beyond 200);
the control endpoints `pause`/`resume`/`stop`, by contrast, append their
log entry with no truncation, so their bound can be exceeded until the
next `emit`. -/
theorem c8_logtail_amended (logs : List String) (entry : String) :
    (WebUILogger_emit logs entry).length ≤ 200 ∧
    WebUILogger_emit logs entry =
      (logs ++ [entry]).drop ((logs ++ [entry]).length - 200) ∧
    (∀ s : WebState,
      (pause_extraction s).status.logs = s.status.logs ++ ["[PAUSED BY USER]"] ∧
      (resume_extraction s).status.logs = s.status.logs ++ ["[RESUMED BY USER]"] ∧
      (stop_extraction s).status.logs = s.status.logs ++ ["[STOPPED BY USER]"]) := by
  refine ⟨?_, ?_, fun s => ⟨rfl, rfl, rfl⟩⟩
  · simp only [WebUILogger_emit]
    by_cases h : 200 < (logs ++ [entry]).length
    · simp only [if_pos h, List.length_drop]
      omega
    · simp only [if_neg h]
      omega
  · simp only [WebUILogger_emit]
    by_cases h : 200 < (logs ++ [entry]).length
    · simp only [if_pos h]
    · simp only [if_neg h]
      have h0 : (logs ++ [entry]).length - 200 = 0 := by omega
      rw [h0, List.drop_zero]

/-- C8 witness: emitting onto a full 200-entry tail stays at the bound. -/
theorem c8_logtail_witness :
    (WebUILogger_emit (List.replicate 200 "log entry") "x").length ≤ 200 :=
  (c8_logtail_amended (List.replicate 200 "log entry") "x").1

/-- C5 (counterexample): the CSV header written by `save_to_csv` for a
non-empty batch is not the claimed 8-column header ending in
`last_modified_local` — its final column is named `last_modified_est`. -/
theorem c5_csv_header_counterexample :
    save_to_csv [sampleListing] = some [csvHeader, csvRow sampleListing] ∧
    csvHeader.getLast? = some "last_modified_est" ∧
    csvHeader ≠ ["property_id", "listing_url", "address", "city", "state",
      "zipcode", "last_modified", "last_modified_local"] := by
  decide

/-- C5 (amended): for every non-empty batch the file is the fixed header
row `property_id, listing_url, address, city, state, zipcode,
last_modified, last_modified_est` followed by one 8-cell row per record,
whose last cell is `YYYY-MM-DD HH:MM:SS <zone-abbrev>` when the local-time
conversion succeeded and empty otherwise. -/
theorem c5_csv_format_amended (listings : List Listing) (h : listings ≠ []) :
    save_to_csv listings = some (csvHeader :: listings.map csvRow) ∧
    csvHeader = ["property_id", "listing_url", "address", "city", "state",
      "zipcode", "last_modified", "last_modified_est"] ∧
    (∀ l : Listing, (csvRow l).length = 8 ∧
      (csvRow l).getLast? = some (renderEst l.last_modified_est)) ∧
    renderEst none = "" ∧
    (∀ t, renderEst (some t) = fmtEastern t) ∧
    fmtEastern ⟨2024, 1, 15, 7, 0, 0, false⟩ = "2024-01-15 07:00:00 EST" := by
  cases listings with
  | nil => exact absurd rfl h
  | cons a as => exact ⟨rfl, rfl, fun l => ⟨rfl, rfl⟩, rfl, fun t => rfl, by decide⟩

/-- C5 witness: the amended CSV shape at a concrete one-record batch. -/
theorem c5_csv_format_witness :
    save_to_csv [sampleListing] = some (csvHeader :: [sampleListing].map csvRow) :=
  (c5_csv_format_amended [sampleListing] (by decide)).1

/-- The success case of the claim for `get_sitemap_children`: the direct
`<sitemap>` children having a `<loc>`, in document order, mapped to that
`<loc>`'s text. -/
def childLocsSpec (root : XmlTree) : List (Option String) :=
  ((findall root nsSitemapTag).filter fun sm => (findFirst sm nsLocTag).isSome).map
    fun sm => ((findFirst sm nsLocTag).getD (XmlTree.elem "" none [])).textOf

/-- `List.filterMap` over the loc lookup coincides with filtering the
elements that have a loc and reading it. -/
theorem filterMap_loc_eq (xs : List XmlTree) :
    xs.filterMap (fun sm => (findFirst sm nsLocTag).map XmlTree.textOf) =
      (xs.filter fun sm => (findFirst sm nsLocTag).isSome).map
        (fun sm => ((findFirst sm nsLocTag).getD (XmlTree.elem "" none [])).textOf) := by
  induction xs with
  | nil => rfl
  | cons x xs ih =>
    cases h : findFirst x nsLocTag <;>
      simp [List.filterMap_cons, List.filter_cons, h, ih]

/-- C10 (counterexample): a body that fails gzip decompression (`gz =
none`) is not returned as the empty list — the code falls back to
`response.text`, and when that text is a well-formed index the children
are returned. -/
theorem c10_children_counterexample :
    get_sitemap_children (.ok none (.wellFormed sampleIndexRoot)) =
      [some "https://child1.xml.gz", some "https://child2.xml.gz"] ∧
    get_sitemap_children (.ok none (.wellFormed sampleIndexRoot)) ≠ [] := by
  decide

/-- C10 (amended): `get_sitemap_children` is total and never raises: a
fetch error or non-2xx yields `[]`; a body whose effective content (the
gzip decompression when it succeeds, else the plain text fallback) is
malformed XML yields `[]`; a gzip decompression failure falls back to the
plain text body; and a well-formed effective content yields the `<loc>`
texts of the direct `<sitemap>` children in document order, skipping the
`<sitemap>` elements lacking a `<loc>`. -/
theorem c10_children_amended :
    get_sitemap_children HttpResult.failure = [] ∧
    (∀ gz text, gz.getD text = Content.malformed →
      get_sitemap_children (.ok gz text) = []) ∧
    (∀ text, get_sitemap_children (.ok none text) =
      get_sitemap_children (.ok (some text) text)) ∧
    (∀ gz text root, gz.getD text = Content.wellFormed root →
      get_sitemap_children (.ok gz text) = childLocsSpec root) := by
  refine ⟨rfl, ?_, fun text => rfl, ?_⟩
  · intro gz text h
    simp only [get_sitemap_children, h]
  · intro gz text root h
    simp only [get_sitemap_children, h, childLocsSpec]
    exact filterMap_loc_eq _

/-- C10 witness: the amended facts at concrete bodies — a body whose
effective content is malformed gives `[]`, and the sample index gives its
child locs. -/
theorem c10_children_witness :
    get_sitemap_children (.ok (some Content.malformed) (.wellFormed sampleIndexRoot)) = [] ∧
    get_sitemap_children (.ok none (.wellFormed sampleIndexRoot)) =
      childLocsSpec sampleIndexRoot :=
  ⟨c10_children_amended.2.1 (some Content.malformed) (.wellFormed sampleIndexRoot) rfl,
    c10_children_amended.2.2.2 none (.wellFormed sampleIndexRoot) sampleIndexRoot rfl⟩

/-- C7: decode totality on bad input — whenever the URL's path, stripped
of leading/trailing slashes, splits into fewer than 3 segments, or its
second segment does not match `<…>-<2 uppercase letters>-<5 digits>`
anchored at the end, `parse_listing_url` returns `none` (it is a total
function, so no exception can escape, and no partial record is ever
produced). -/
theorem c7_decode_totality (url : String) :
    ((splitOnChar '/' (stripSlashes (urlparse_path url).toList)).length < 3 →
      parse_listing_url url = none) ∧
    (∀ p0 p1 p2 rest,
      splitOnChar '/' (stripSlashes (urlparse_path url).toList) = p0 :: p1 :: p2 :: rest →
      matchAddr p1 = none → parse_listing_url url = none) := by
  constructor
  · intro hlen
    unfold parse_listing_url parse_listing_path
    rcases hsplit : splitOnChar '/' (stripSlashes (urlparse_path url).toList) with
      _ | ⟨a, _ | ⟨b, _ | ⟨c, t⟩⟩⟩
    · rfl
    · rfl
    · rfl
    · rw [hsplit] at hlen
      simp only [List.length_cons] at hlen
      omega
  · intro p0 p1 p2 rest hsplit hm
    unfold parse_listing_url parse_listing_path
    rw [hsplit]
    simp only [hm]

/-- C7 witness: a 1-segment path and a non-matching second segment both
decode to `none`. -/
theorem c7_decode_totality_witness :
    parse_listing_url "/a/" = none ∧ parse_listing_url "/x/nomatch/9_zpid/" = none :=
  ⟨(c7_decode_totality "/a/").1 (by decide),
    (c7_decode_totality "/x/nomatch/9_zpid/").2 "x".toList "nomatch".toList
      "9_zpid".toList [] (by decide) (by decide)⟩

/-- A stored listing always comes from `candidateOf`. -/
theorem processUrlElem_some {seen : Finset String} {elem : XmlTree} {l : Listing}
    (h : (processUrlElem seen elem).1 = some l) : candidateOf elem = some l := by
  unfold processUrlElem at h
  split at h
  · exact absurd h (by simp)
  · rename_i c heq
    split at h
    · dsimp only [] at h
      rw [heq, h]
    · exact absurd h (by simp)

/-- The candidate listing built from a `<url>` element carries the raw
`<lastmod>` value unchanged and its conversion. -/
theorem candidateOf_lastmod {elem : XmlTree} {c : Listing}
    (h : candidateOf elem = some c) :
    c.last_modified = rawLastmodOf elem ∧
    c.last_modified_est = convert_utc_to_est (rawLastmodOf elem) := by
  unfold candidateOf at h
  split at h
  · exact absurd h (by simp)
  · split at h
    · exact absurd h (by simp)
    · split at h
      · exact absurd h (by simp)
      · cases h
        exact ⟨rfl, rfl⟩

/-- C6: converting `"2024-01-15T12:00:00Z"` yields 07:00:00 US Eastern on
2024-01-15 (standard-time offset UTC−5, abbreviation EST); the empty
string, Python `None`, and every string that fails to parse (after the
`'Z'` removal) yield no local timestamp; and every listing the extraction
loop stores carries the raw `<lastmod>` string unchanged in
`last_modified`, with `last_modified_est` its conversion. -/
theorem c6_time_conversion :
    convert_utc_to_est (some "2024-01-15T12:00:00Z") =
      some ⟨2024, 1, 15, 7, 0, 0, false⟩ ∧
    convert_utc_to_est (some "") = none ∧
    convert_utc_to_est none = none ∧
    (∀ s : String, strptimeYmdHms (s.toList.filter (· ≠ 'Z')) = none →
      convert_utc_to_est (some s) = none) ∧
    (∀ (seen : Finset String) (elem : XmlTree) (l : Listing),
      (processUrlElem seen elem).1 = some l →
      l.last_modified = rawLastmodOf elem ∧
      l.last_modified_est = convert_utc_to_est (rawLastmodOf elem)) := by
  refine ⟨by decide, by decide, rfl, ?_, ?_⟩
  · intro s hp
    unfold convert_utc_to_est
    by_cases hs : s = ""
    · simp [hs]
    · simp only [if_neg hs, hp]
  · intro seen elem l h
    exact candidateOf_lastmod (processUrlElem_some h)

/-- C6 witness: a malformed string converts to `none`, and the concrete
stored sample listing carries its raw lastmod string unchanged. -/
theorem c6_time_conversion_witness :
    convert_utc_to_est (some "garbage") = none ∧
    sampleListing.last_modified = rawLastmodOf sampleUrlElem :=
  ⟨c6_time_conversion.2.2.2.1 "garbage" (by decide),
    (c6_time_conversion.2.2.2.2 ∅ sampleUrlElem sampleListing (by decide)).1⟩

/-! ### Dedup-invariant lemmas for `storeOffered` (claim C1) -/

/-- The property ids of a listing sequence, in order. -/
def idsOf (ls : List Listing) : List String := ls.map Listing.property_id

/-- `idsOf` on a cons. -/
theorem idsOf_cons (a : Listing) (l : List Listing) :
    idsOf (a :: l) = a.property_id :: idsOf l := rfl

/-- Offering an already-seen id stores nothing and leaves the state
unchanged. -/
theorem storeOffered_cons_mem (a : Listing) (l : List Listing) (seen : Finset String)
    (ha : a.property_id ∈ seen) :
    storeOffered seen (a :: l) = storeOffered seen l := by
  simp [storeOffered, tryAdd, ha]

/-- Offering an unseen id stores the record and inserts the id. -/
theorem storeOffered_cons_new (a : Listing) (l : List Listing) (seen : Finset String)
    (ha : a.property_id ∉ seen) :
    storeOffered seen (a :: l) =
      (a :: (storeOffered (insert a.property_id seen) l).1,
        (storeOffered (insert a.property_id seen) l).2) := by
  simp [storeOffered, tryAdd, ha]

/-- Membership characterization of the store: a record is stored iff it
occurs in the offered sequence at a position where its id is neither
initially seen nor carried by any earlier offered entry. -/
theorem storeOffered_mem (l : List Listing) (seen : Finset String) (r : Listing) :
    r ∈ (storeOffered seen l).1 ↔
      ∃ pre post, l = pre ++ r :: post ∧ r.property_id ∉ seen ∧
        r.property_id ∉ idsOf pre := by
  induction l generalizing seen with
  | nil =>
    simp only [storeOffered, List.not_mem_nil, false_iff]
    rintro ⟨pre, post, hEq, -, -⟩
    exact (List.append_ne_nil_of_right_ne_nil pre (List.cons_ne_nil r post)) hEq.symm
  | cons a l ih =>
    by_cases ha : a.property_id ∈ seen
    · rw [storeOffered_cons_mem a l seen ha, ih]
      constructor
      · rintro ⟨pre, post, rfl, hns, hnp⟩
        refine ⟨a :: pre, post, rfl, hns, ?_⟩
        simp only [idsOf_cons, List.mem_cons, not_or]
        exact ⟨fun hEq => hns (hEq ▸ ha), hnp⟩
      · rintro ⟨pre, post, hEq, hns, hnp⟩
        cases pre with
        | nil =>
          simp only [List.nil_append, List.cons.injEq] at hEq
          obtain ⟨rfl, rfl⟩ := hEq
          exact absurd ha hns
        | cons b pre =>
          simp only [List.cons_append, List.cons.injEq] at hEq
          obtain ⟨rfl, rfl⟩ := hEq
          simp only [idsOf_cons, List.mem_cons, not_or] at hnp
          exact ⟨pre, post, rfl, hns, hnp.2⟩
    · rw [storeOffered_cons_new a l seen ha]
      simp only [List.mem_cons]
      rw [ih]
      constructor
      · rintro (rfl | ⟨pre, post, rfl, hns, hnp⟩)
        · exact ⟨[], l, rfl, ha, by simp [idsOf]⟩
        · simp only [Finset.mem_insert, not_or] at hns
          refine ⟨a :: pre, post, rfl, hns.2, ?_⟩
          simp only [idsOf_cons, List.mem_cons, not_or]
          exact ⟨hns.1, hnp⟩
      · rintro ⟨pre, post, hEq, hns, hnp⟩
        cases pre with
        | nil =>
          simp only [List.nil_append, List.cons.injEq] at hEq
          obtain ⟨rfl, rfl⟩ := hEq
          exact Or.inl rfl
        | cons b pre =>
          simp only [List.cons_append, List.cons.injEq] at hEq
          obtain ⟨rfl, rfl⟩ := hEq
          simp only [idsOf_cons, List.mem_cons, not_or] at hnp
          refine Or.inr ⟨pre, post, rfl, ?_, hnp.2⟩
          simp only [Finset.mem_insert, not_or]
          exact ⟨hnp.1, hns⟩

/-- The stored ids are pairwise distinct, and none of them was initially
seen. -/
theorem storeOffered_nodup (l : List Listing) (seen : Finset String) :
    (idsOf (storeOffered seen l).1).Nodup ∧
    ∀ x ∈ idsOf (storeOffered seen l).1, x ∉ seen := by
  induction l generalizing seen with
  | nil => simp [storeOffered, idsOf]
  | cons a l ih =>
    by_cases ha : a.property_id ∈ seen
    · rw [storeOffered_cons_mem a l seen ha]
      exact ih seen
    · rw [storeOffered_cons_new a l seen ha]
      obtain ⟨hnd, hall⟩ := ih (insert a.property_id seen)
      constructor
      · rw [idsOf_cons, List.nodup_cons]
        refine ⟨fun hmem => ?_, hnd⟩
        exact (hall _ hmem) (Finset.mem_insert_self _ _)
      · intro x hx
        rw [idsOf_cons, List.mem_cons] at hx
        rcases hx with rfl | hx'
        · exact ha
        · exact fun hxs => (hall x hx') (Finset.mem_insert_of_mem hxs)

/-- The stored records are a subsequence of the offered records. -/
theorem storeOffered_sublist (l : List Listing) (seen : Finset String) :
    (storeOffered seen l).1.Sublist l := by
  induction l generalizing seen with
  | nil => simp [storeOffered]
  | cons a l ih =>
    by_cases ha : a.property_id ∈ seen
    · rw [storeOffered_cons_mem a l seen ha]
      exact (ih seen).cons a
    · rw [storeOffered_cons_new a l seen ha]
      exact (ih (insert a.property_id seen)).cons₂ a

/-- The number of stored records is the number of distinct offered ids not
initially seen. -/
theorem storeOffered_length (l : List Listing) (seen : Finset String) :
    (storeOffered seen l).1.length = ((idsOf l).toFinset \ seen).card := by
  induction l generalizing seen with
  | nil => simp [storeOffered, idsOf]
  | cons a l ih =>
    by_cases ha : a.property_id ∈ seen
    · rw [storeOffered_cons_mem a l seen ha, ih seen, idsOf_cons,
        List.toFinset_cons, Finset.insert_sdiff_of_mem _ ha]
    · rw [storeOffered_cons_new a l seen ha]
      have hset : insert a.property_id (idsOf l).toFinset \ seen =
          insert a.property_id ((idsOf l).toFinset \ insert a.property_id seen) := by
        ext x
        simp only [Finset.mem_sdiff, Finset.mem_insert, not_or]
        constructor
        · rintro ⟨rfl | hx, hxs⟩
          · exact Or.inl rfl
          · by_cases hxa : x = a.property_id
            · exact Or.inl hxa
            · exact Or.inr ⟨hx, hxa, hxs⟩
        · rintro (rfl | ⟨hx, hxa, hxs⟩)
          · exact ⟨Or.inl rfl, ha⟩
          · exact ⟨Or.inr hx, hxs⟩
      have hnm : a.property_id ∉ (idsOf l).toFinset \ insert a.property_id seen := by
        simp [Finset.mem_sdiff]
      rw [List.length_cons, ih (insert a.property_id seen), idsOf_cons,
        List.toFinset_cons, hset, Finset.card_insert_of_not_mem hnm]

/-- C1: first-seen-wins deduplication for a run starting with an empty
seen set — `tryAdd` succeeds exactly on unseen ids; a record is stored and
emitted iff it is offered at a position whose id no earlier offered entry
carries; the store holds at most one record per id (the stored records, a
subsequence of the offered ones, have pairwise-distinct ids); and the
final number of stored records is the number of distinct offered ids. -/
theorem c1_dedup_first_seen (offered : List Listing) :
    (∀ (seen : Finset String) (pid : String), (tryAdd seen pid).1 = true ↔ pid ∉ seen) ∧
    (∀ r : Listing, r ∈ (storeOffered ∅ offered).1 ↔
      ∃ pre post, offered = pre ++ r :: post ∧ r.property_id ∉ idsOf pre) ∧
    (idsOf (storeOffered ∅ offered).1).Nodup ∧
    ((storeOffered ∅ offered).1).Sublist offered ∧
    (storeOffered ∅ offered).1.length = (idsOf offered).toFinset.card := by
  refine ⟨?_, ?_, (storeOffered_nodup offered ∅).1, storeOffered_sublist offered ∅, ?_⟩
  · intro seen pid
    unfold tryAdd
    by_cases h : pid ∈ seen <;> simp [h]
  · intro r
    rw [storeOffered_mem]
    constructor
    · rintro ⟨pre, post, h1, -, h3⟩
      exact ⟨pre, post, h1, h3⟩
    · rintro ⟨pre, post, h1, h3⟩
      exact ⟨pre, post, h1, by simp, h3⟩
  · rw [storeOffered_length, Finset.sdiff_empty]

/-- C1 witness: offering the sample listing, a different one, then the
first again stores the first occurrence and yields 2 records. -/
theorem c1_dedup_first_seen_witness :
    sampleListing ∈ (storeOffered ∅ [sampleListing, sampleListingB, sampleListing]).1 ∧
    (storeOffered ∅ [sampleListing, sampleListingB, sampleListing]).1.length =
      (idsOf [sampleListing, sampleListingB, sampleListing]).toFinset.card :=
  ⟨((c1_dedup_first_seen [sampleListing, sampleListingB, sampleListing]).2.1
      sampleListing).mpr ⟨[], [sampleListingB, sampleListing], rfl, by decide⟩,
    (c1_dedup_first_seen [sampleListing, sampleListingB, sampleListing]).2.2.2.2⟩

/-! ### Per-job failure isolation (claim C4) -/

/-- A malformed-XML job only logs its parse error: the seen set, files,
and totals of the run state are untouched. -/
theorem processJob_malformed (acc : RunAcc) (cat : String) :
    processJob acc ⟨cat, some Content.malformed⟩ =
      { acc with errors := acc.errors ++ ["XML ParseError"] } := rfl

/-- Processing the same jobs from two run states that agree on everything
but the error log yields states that agree on everything but the error
log, and both append the same new errors. -/
theorem foldl_processJob_congr (js : List Job) (a b : RunAcc)
    (hs : a.seen = b.seen) (hf : a.files = b.files) (ht : a.total = b.total) :
    (js.foldl processJob a).seen = (js.foldl processJob b).seen ∧
    (js.foldl processJob a).files = (js.foldl processJob b).files ∧
    (js.foldl processJob a).total = (js.foldl processJob b).total ∧
    ∃ tail, (js.foldl processJob a).errors = a.errors ++ tail ∧
      (js.foldl processJob b).errors = b.errors ++ tail := by
  induction js generalizing a b with
  | nil => exact ⟨hs, hf, ht, [], by simp, by simp⟩
  | cons j js ih =>
    simp only [List.foldl_cons]
    have hstep : (processJob a j).seen = (processJob b j).seen ∧
        (processJob a j).files = (processJob b j).files ∧
        (processJob a j).total = (processJob b j).total ∧
        ∃ d, (processJob a j).errors = a.errors ++ d ∧
          (processJob b j).errors = b.errors ++ d := by
      unfold processJob
      rw [hs]
      cases hx : extract_listings_from_sitemap b.seen j.content with
      | error e => exact ⟨rfl, hf, ht, [e], rfl, rfl⟩
      | ok res =>
        refine ⟨rfl, ?_, by simp [ht], [], by simp, by simp⟩
        cases hsv : save_to_csv res.1 with
        | none => simp [hsv, hf]
        | some rows => simp [hsv, hf]
    obtain ⟨s1, f1, t1, d, ea, eb⟩ := hstep
    obtain ⟨S, F, T, tail, e1, e2⟩ := ih (processJob a j) (processJob b j) s1 f1 t1
    refine ⟨S, F, T, d ++ tail, ?_, ?_⟩
    · rw [e1, ea, List.append_assoc]
    · rw [e2, eb, List.append_assoc]

/-- C4: a malformed-XML job's parse failure propagates out of
`extract_listings_from_sitemap` (which returns the error rather than
swallowing it) and is caught by the run at job granularity: inserting such
a job anywhere into a run leaves the produced files, the record totals,
and the dedup state of all other jobs exactly as in the run without it,
while the run continues and logs exactly one more error, at the position
of the failing job. -/
theorem c4_parse_failure_isolated (js1 js2 : List Job) (cat : String) :
    extract_listings_from_sitemap (runAll js1).seen (some Content.malformed) =
      .error "XML ParseError" ∧
    (runAll (js1 ++ ⟨cat, some Content.malformed⟩ :: js2)).files =
      (runAll (js1 ++ js2)).files ∧
    (runAll (js1 ++ ⟨cat, some Content.malformed⟩ :: js2)).total =
      (runAll (js1 ++ js2)).total ∧
    (runAll (js1 ++ ⟨cat, some Content.malformed⟩ :: js2)).seen =
      (runAll (js1 ++ js2)).seen ∧
    ∃ tailErrs,
      (runAll (js1 ++ js2)).errors = (runAll js1).errors ++ tailErrs ∧
      (runAll (js1 ++ ⟨cat, some Content.malformed⟩ :: js2)).errors =
        (runAll js1).errors ++ "XML ParseError" :: tailErrs := by
  have hA : runAll (js1 ++ ⟨cat, some Content.malformed⟩ :: js2) =
      js2.foldl processJob
        (processJob (js1.foldl processJob initAcc) ⟨cat, some Content.malformed⟩) := by
    unfold runAll
    rw [List.foldl_append, List.foldl_cons]
  have hB : runAll (js1 ++ js2) = js2.foldl processJob (js1.foldl processJob initAcc) := by
    unfold runAll
    rw [List.foldl_append]
  have hA' : runAll (js1 ++ ⟨cat, some Content.malformed⟩ :: js2) =
      js2.foldl processJob
        { js1.foldl processJob initAcc with
          errors := (js1.foldl processJob initAcc).errors ++ ["XML ParseError"] } := by
    rw [hA, processJob_malformed]
  obtain ⟨S, F, T, tail, e1, e2⟩ :=
    foldl_processJob_congr js2
      { js1.foldl processJob initAcc with
        errors := (js1.foldl processJob initAcc).errors ++ ["XML ParseError"] }
      (js1.foldl processJob initAcc) rfl rfl rfl
  refine ⟨rfl, ?_, ?_, ?_, tail, ?_, ?_⟩
  · rw [hA', hB]; exact F
  · rw [hA', hB]; exact T
  · rw [hA', hB]; exact S
  · rw [hB]; exact e2
  · rw [hA', e1]
    simp [runAll]

/-- C4 witness: concretely, running good job A, the malformed job, then
good job B produces the same files as running A then B. -/
theorem c4_parse_failure_isolated_witness :
    (runAll ([sampleJobA] ++ ⟨"auction", some Content.malformed⟩ :: [sampleJobB])).files =
      (runAll ([sampleJobA] ++ [sampleJobB])).files :=
  (c4_parse_failure_isolated [sampleJobA] [sampleJobB] "auction").2.1

end Extractor
